import Mathlib

/-!
Verification development for the National_Operations_Summary repository.

The definitions below are a shallow embedding of the core logic of
`menu_generator.py`, `page_visibility_detector.py` and `deploy.py`:
pure Python functions become Lean functions, network / process I/O is
replaced by an explicit parameter describing the observable outcome of
the I/O, and Python exceptions become `Except` values.  Strings are
Lean `String`s; the Python string operations used by the code
(`sub in s`, `s.split(sep)[-1]`, `s.lower()`) are modelled by
executable functions on the underlying character lists with the exact
Python semantics (non-overlapping left-to-right splitting).
-/

namespace NatOpsSummary

/-- Model of Python `sub in s` (substring containment) on character lists:
`sub` occurs somewhere in `s`. -/
def containsSub (sub : List Char) : List Char → Bool
  | [] => sub.isEmpty
  | c :: t => sub.isPrefixOf (c :: t) || containsSub sub t

/-- Model of Python `s.split(sep)` for a non-empty separator, on character
lists: split at the non-overlapping occurrences of `sep`, scanning left to
right.  `fuel` bounds the recursion; `fuel = s.length` is always enough
because every step strictly shortens the remaining input. -/
def pySplitAux (sep : List Char) : Nat → List Char → List (List Char)
  | _, [] => [[]]
  | 0, s => [s]
  | fuel + 1, c :: t =>
    if sep.isPrefixOf (c :: t) then
      [] :: pySplitAux sep fuel (List.drop sep.length (c :: t))
    else
      match pySplitAux sep fuel t with
      | [] => [[c]]
      | h :: r => (c :: h) :: r

/-- Python `s.split(sep)` on strings (non-empty `sep`). -/
def pySplitOn (s sep : String) : List String :=
  (pySplitAux sep.toList s.toList.length s.toList).map fun cs => String.mk cs

/-- Python `sub in s` on strings. -/
def pyContains (s sub : String) : Bool :=
  containsSub sub.toList s.toList

/-- Python `s.split(sep)[-1]`: the text after the last non-overlapping
occurrence of `sep` (the whole of `s` when `sep` does not occur). -/
def pyLastSegment (s sep : String) : String :=
  (pySplitOn s sep).getLastD ""

/-- Python `str.lower()` restricted to ASCII, which covers all the
keyword matching done in the code. -/
def pyCharLower (c : Char) : Char :=
  if 'A' ≤ c ∧ c ≤ 'Z' then Char.ofNat (c.toNat + 32) else c

/-- Python `s.lower()` on strings (ASCII case folding). -/
def pyLower (s : String) : String :=
  String.mk (s.toList.map pyCharLower)

/-! ## Menu data model (`menu.json` wire format)

A menu link is `{label, href, term}`; a category is
`{category, color, links}`; a menu tree is an ordered list of
categories (`menu_generator.py`, `deploy.py::validate_menu`). -/

/-- A menu link `{label, href, term}`. -/
structure MenuLink where
  label : String
  href : String
  term : String
deriving Repr, DecidableEq

/-- A well-formed menu category `{category, color, links}`. -/
structure MenuCategory where
  category : String
  color : String
  links : List MenuLink
deriving Repr, DecidableEq

/-- An entry of the `removed_items` diagnostic list built by
`MenuGenerator.validate_menu_visibility`. -/
structure RemovedItem where
  category : String
  label : String
  page_id : String
deriving Repr, DecidableEq

/-- The inner loop over the links of one category in
`MenuGenerator.validate_menu_visibility` (menu_generator.py lines
186-203): returns the `cleaned_links` kept for this category and the
`removed_items` entries it appends, in traversal order. -/
def processLinks (catName : String) (visible : List String) :
    List MenuLink → List MenuLink × List RemovedItem
  | [] => ([], [])
  | link :: rest =>
    let res := processLinks catName visible rest
    if pyContains link.href "/page/" then
      let page_id := pyLastSegment link.href "/page/"
      if visible.contains page_id then
        (link :: res.1, res.2)
      else
        (res.1, ⟨catName, link.label, page_id⟩ :: res.2)
    else
      (link :: res.1, res.2)

/-- The category loop of `MenuGenerator.validate_menu_visibility`
(menu_generator.py lines 182-218) on a well-formed tree: returns
`(cleaned_menu, removed_items)`.  A category is emitted (with its
filtered links) only when `cleaned_links` is non-empty. -/
def validateCore (visible : List String) :
    List MenuCategory → List MenuCategory × List RemovedItem
  | [] => ([], [])
  | c :: cs =>
    let pr := processLinks c.category visible c.links
    let rest := validateCore visible cs
    if pr.1.isEmpty then (rest.1, pr.2 ++ rest.2)
    else ({ c with links := pr.1 } :: rest.1, pr.2 ++ rest.2)

/-- The keep rule the reconciliation applies to a single link: a link
whose href contains the `/page/` marker is kept iff the page key after
the last `/page/` is in the visible set; a link without the marker is
kept unconditionally. -/
def keepLink (visible : List String) (link : MenuLink) : Bool :=
  if pyContains link.href "/page/" then
    visible.contains (pyLastSegment link.href "/page/")
  else
    true

/-! ## Page visibility classifier (`page_visibility_detector.py`) -/

/-- A page record fetched from the platform.  The Python code reads the
record with `page_data.get(...)`, so every field it touches may be
absent: `label` defaults to the empty string, `visible` and
`showInNav` default to `True`. -/
structure PageData where
  label : Option String
  visible : Option Bool
  showInNav : Option Bool
deriving Repr, DecidableEq

/-- The page label, defaulting to the empty string, lowercased — as
both `should_hide_page` and `get_hide_reason` read it. -/
def pageLabel (page_data : PageData) : String :=
  pyLower (page_data.label.getD "")

/-- Rule 3 keyword list of `should_hide_page`. -/
def test_keywords : List String :=
  ["test", "beta", "old", "temp", "draft", "dev", "debug"]

/-- Rule 4 keyword list of `should_hide_page`. -/
def construction_keywords : List String :=
  ["construction", "wip", "todo", "pending", "coming soon"]

/-- Rule 5 keyword list of `should_hide_page`. -/
def admin_keywords : List String :=
  ["admin", "internal", "private", "restricted access"]

/-- Rule 6 manual-override page ids of `should_hide_page` (the same
literal list reappears in `get_hide_reason`). -/
def hidden_page_ids : List String :=
  ["page_154", "page_181", "page_129", "page_130"]

/-- Model of `should_hide_page` (page_visibility_detector.py
lines 26-75): the ordered rule list; the first `if` that fires returns
`True`, otherwise the function returns `False`. -/
def should_hide_page (page_id : String) (page_data : PageData) : Bool :=
  let page_label := pageLabel page_data
  if !(page_data.visible.getD true) then true
  else if !(page_data.showInNav.getD true) then true
  else if test_keywords.any fun kw => pyContains page_label kw then true
  else if construction_keywords.any fun kw => pyContains page_label kw then true
  else if admin_keywords.any fun kw => pyContains page_label kw then true
  else if hidden_page_ids.contains page_id then true
  else false

/-- Model of `get_hide_reason` (page_visibility_detector.py
lines 120-133).  Note that, unlike `should_hide_page`, it checks only
the keywords `test`, `beta`, `old` and has no branch for the
construction or admin keyword lists. -/
def get_hide_reason (page_id : String) (page_data : PageData) : String :=
  let page_label := pageLabel page_data
  if !(page_data.visible.getD true) then "Not visible"
  else if !(page_data.showInNav.getD true) then "Hidden from navigation"
  else if (["test", "beta", "old"] : List String).any
      (fun kw => pyContains page_label kw) then "Test/development page"
  else if (["page_154", "page_181", "page_129", "page_130"] : List String).contains
      page_id then "Manual override"
  else "Unknown reason"

/-- The partitioning loop of `get_visible_pages`
(page_visibility_detector.py lines 96-103): each `(page_id, page_data)`
entry goes to `hidden_pages` when `should_hide_page` holds and to
`visible_pages` otherwise, preserving iteration order. -/
def partitionPages :
    List (String × PageData) → List (String × PageData) × List (String × PageData)
  | [] => ([], [])
  | (page_id, page_data) :: rest =>
    let res := partitionPages rest
    if should_hide_page page_id page_data then (res.1, (page_id, page_data) :: res.2)
    else ((page_id, page_data) :: res.1, res.2)

/-! ## The fetching wrapper and the full reconciliation entry point

`get_visible_pages` performs network I/O (token + items-data request).
Its observable outcome is modelled by `FetchResult`: the request (or
the token exchange before it) raised an exception, or it returned a
JSON document without a `pages` key, or it returned a `pages` mapping. -/

/-- Observable outcome of the platform request issued by
`get_visible_pages` (including the `get_arcgis_token` call before it,
whose exceptions propagate identically). -/
inductive FetchResult where
  | failure
  | noPages
  | withPages (pages : List (String × PageData))
deriving Repr, DecidableEq

/-- Model of `get_visible_pages` (page_visibility_detector.py
lines 77-118): an exception from the request propagates (`.error`);
a response without a `pages` key returns `{}`; otherwise the visible
part of the partition is returned. -/
def get_visible_pages : FetchResult → Except String (List (String × PageData))
  | .failure => .error "request failed"
  | .noPages => .ok []
  | .withPages pages => .ok (partitionPages pages).1

/-- A category as it appears in raw `menu.json` input: the `links` key
may be missing (the links lookup then raises `KeyError`). -/
structure RawCategory where
  category : String
  color : String
  links : Option (List MenuLink)
deriving Repr, DecidableEq

/-- The `try`-block body of `MenuGenerator.validate_menu_visibility`
on raw categories: the links lookup raises (`.error`) when the key
is missing; otherwise the loop filters as in `validateCore`. -/
def validateCoreRaw (visible : List String) :
    List RawCategory → Except String (List RawCategory × List RemovedItem)
  | [] => .ok ([], [])
  | c :: cs =>
    match c.links with
    | none => .error "KeyError: links"
    | some ls =>
      let pr := processLinks c.category visible ls
      match validateCoreRaw visible cs with
      | .error e => .error e
      | .ok rest =>
        .ok ((if pr.1.isEmpty then rest.1 else { c with links := some pr.1 } :: rest.1),
             pr.2 ++ rest.2)

/-- Model of `MenuGenerator.validate_menu_visibility`
(menu_generator.py lines 164-223): with no experience id the input is
returned untouched; otherwise the whole `try` block — fetching the
visible pages and filtering — runs, and ANY exception (a failed fetch,
a `KeyError` from a malformed category, ...) is caught by the blanket
`except Exception`, which returns the original `menu_data`. -/
def validate_menu_visibility (experience_id : Option String)
    (fetched : FetchResult) (menu_data : List RawCategory) : List RawCategory :=
  match experience_id with
  | none => menu_data
  | some _ =>
    match get_visible_pages fetched with
    | .error _ => menu_data
    | .ok visible_pages =>
      let visible_page_ids := visible_pages.map Prod.fst
      match validateCoreRaw visible_page_ids menu_data with
      | .error _ => menu_data
      | .ok (cleaned_menu, _) => cleaned_menu

/-- Embedding of a well-formed category into the raw format. -/
def MenuCategory.toRaw (c : MenuCategory) : RawCategory :=
  ⟨c.category, c.color, some c.links⟩

/-! ## Token acquisition (`get_arcgis_token`) -/

/-- Observable outcome of the POST to the OAuth token endpoint: either
the transport raised (a `requests` exception propagates out of
`get_arcgis_token`), or a JSON body was returned, modelled as its
key/value fields.  A rejected client-credential exchange is a returned
body that carries an `error` member and no `access_token`. -/
inductive TokenExchange where
  | transportError
  | response (fields : List (String × String))
deriving Repr, DecidableEq

/-- Python `dict.get(key)`: the value when present, `None` otherwise. -/
def jsonGet (fields : List (String × String)) (key : String) : Option String :=
  (fields.find? fun p => p.1 == key).map Prod.snd

/-- Model of `get_arcgis_token` (page_visibility_detector.py lines
10-24): posts the credential form and returns the access_token member
of the parsed response — the token when present, `None` otherwise;
only a transport failure raises. -/
def get_arcgis_token : TokenExchange → Except String (Option String)
  | .transportError => .error "requests exception"
  | .response fields => .ok (jsonGet fields "access_token")

/-! ## Deployment pipeline (`deploy.py`) -/

/-- Observable outcomes of the git subprocess calls made by
`MenuDeployer.deploy_to_github`: the stripped `git status --porcelain`
output and the success of `git add`, `git commit`, `git push`. -/
structure GitEnv where
  changes : String
  add_ok : Bool
  commit_ok : Bool
  push_ok : Bool
deriving Repr, DecidableEq

/-- Model of `MenuDeployer.deploy_to_github` (deploy.py lines 43-72): empty
status output is a no-op success; otherwise add, commit and push run in
sequence and the first failure returns `False`. -/
def deploy_to_github (git : GitEnv) : Bool :=
  if git.changes = "" then true
  else if !git.add_ok then false
  else if !git.commit_ok then false
  else git.push_ok

/-- Model of `MenuDeployer.full_deployment` (deploy.py lines 182-213).  The
backup outcome is only logged; a failed `validate_menu` aborts with
`False`; otherwise the two publish outcomes are combined into the
single returned boolean: `True` iff both succeeded, `False` otherwise.
`pythonanywhere_ok` is the boolean returned by
`deploy_to_pythonanywhere`, whose value is decided entirely by file and
HTTP I/O. -/
def full_deployment (backup_ok : Bool) (validate_ok : Bool)
    (git : GitEnv) (pythonanywhere_ok : Bool) : Bool :=
  let _ := backup_ok
  if !validate_ok then false
  else
    let github_success := deploy_to_github git
    let pythonanywhere_success := pythonanywhere_ok
    if github_success && pythonanywhere_success then true
    else false

/-! ## Helper lemmas about the reconciliation loop -/

/-- The kept links of the inner loop are exactly the stable filter of
the input links by the keep rule. -/
theorem processLinks_fst (catName : String) (visible : List String)
    (ls : List MenuLink) :
    (processLinks catName visible ls).1 = ls.filter (keepLink visible) := by
  induction ls with
  | nil => rfl
  | cons link rest ih =>
    simp only [processLinks, List.filter_cons, keepLink]
    by_cases h : pyContains link.href "/page/" = true
    · by_cases h2 : pyLastSegment link.href "/page/" ∈ visible
      · simp [h, h2, ih]
      · simp [h, h2, ih]
    · simp [h, ih]

/-- When every link passes the keep rule, the inner loop keeps all
links and removes nothing. -/
theorem processLinks_clean (catName : String) (visible : List String)
    (ls : List MenuLink) (h : ∀ l ∈ ls, keepLink visible l = true) :
    processLinks catName visible ls = (ls, []) := by
  induction ls with
  | nil => rfl
  | cons link rest ih =>
    have hlink := h link (by simp)
    have hrest : processLinks catName visible rest = (rest, []) :=
      ih fun l hl => h l (by simp [hl])
    simp only [keepLink] at hlink
    simp only [processLinks, hrest]
    by_cases hc : pyContains link.href "/page/" = true
    · rw [if_pos hc] at hlink
      have hmem := List.mem_of_elem_eq_true hlink
      simp [hc, hmem]
    · simp [hc]

/-- The cleaned menu is the stable `filterMap` of the input categories:
the links of each category are filtered by the keep rule, and the category
survives iff the filtered list is non-empty. -/
theorem validateCore_fst_eq (visible : List String)
    (tree : List MenuCategory) :
    (validateCore visible tree).1 =
      tree.filterMap fun c =>
        let cl := c.links.filter (keepLink visible)
        if cl.isEmpty then none else some { c with links := cl } := by
  induction tree with
  | nil => rfl
  | cons c cs ih =>
    have hcl := processLinks_fst c.category visible c.links
    simp only [validateCore, List.filterMap_cons, hcl]
    by_cases he : (c.links.filter (keepLink visible)).isEmpty = true
    · rw [if_pos he, if_pos he]
      simpa using ih
    · rw [if_neg he, if_neg he]
      simpa using ih

/-- Every category the reconciliation emits has a non-empty link
list. -/
theorem validateCore_mem_ne_nil (visible : List String)
    (tree : List MenuCategory) (c : MenuCategory)
    (hc : c ∈ (validateCore visible tree).1) : c.links ≠ [] := by
  rw [validateCore_fst_eq] at hc
  rw [List.mem_filterMap] at hc
  obtain ⟨a, _, ha⟩ := hc
  by_cases he : (a.links.filter (keepLink visible)).isEmpty = true
  · rw [if_pos he] at ha
    exact absurd ha (by simp)
  · rw [if_neg he] at ha
    cases ha
    simpa [List.isEmpty_iff] using he

/-- On a clean tree (every link passes the keep rule) with no empty
category, the reconciliation is the identity and removes nothing. -/
theorem validateCore_clean (visible : List String)
    (tree : List MenuCategory)
    (hclean : ∀ c ∈ tree, ∀ l ∈ c.links, keepLink visible l = true)
    (hne : ∀ c ∈ tree, c.links ≠ []) :
    validateCore visible tree = (tree, []) := by
  induction tree with
  | nil => rfl
  | cons c cs ih =>
    have hl : processLinks c.category visible c.links = (c.links, []) :=
      processLinks_clean c.category visible c.links (hclean c (by simp))
    have hr : validateCore visible cs = (cs, []) :=
      ih (fun d hd => hclean d (by simp [hd])) (fun d hd => hne d (by simp [hd]))
    have hcne : c.links.isEmpty = false := by
      simpa [List.isEmpty_iff] using hne c (by simp)
    simp [validateCore, hl, hr, hcne]

/-- On an embedded well-formed tree the raw loop never raises, and
computes exactly what `validateCore` computes. -/
theorem validateCoreRaw_toRaw (visible : List String)
    (tree : List MenuCategory) :
    validateCoreRaw visible (tree.map MenuCategory.toRaw) =
      .ok ((validateCore visible tree).1.map MenuCategory.toRaw,
           (validateCore visible tree).2) := by
  induction tree with
  | nil => rfl
  | cons c cs ih =>
    simp only [List.map_cons, validateCoreRaw, MenuCategory.toRaw, validateCore, ih]
    by_cases he : (processLinks c.category visible c.links).1.isEmpty = true
    · rw [if_pos he, if_pos he]
    · rw [if_neg he, if_neg he]
      simp [MenuCategory.toRaw]

/-- A raw tree whose categories all carry a `links` key is the image of
a well-formed tree. -/
theorem allSome_eq_map_toRaw (raw : List RawCategory)
    (h : ∀ c ∈ raw, c.links ≠ none) :
    ∃ tree : List MenuCategory, raw = tree.map MenuCategory.toRaw := by
  induction raw with
  | nil => exact ⟨[], rfl⟩
  | cons c cs ih =>
    obtain ⟨tree, htree⟩ := ih fun d hd => h d (by simp [hd])
    cases hls : c.links with
    | none => exact absurd hls (h c (by simp))
    | some ls =>
      refine ⟨⟨c.category, c.color, ls⟩ :: tree, ?_⟩
      simp [MenuCategory.toRaw, htree, ← hls]

/-- A category with no `links` key makes the raw loop raise its
`KeyError`. -/
theorem validateCoreRaw_missing (visible : List String)
    (raw : List RawCategory) (h : ∃ c ∈ raw, c.links = none) :
    ∃ e, validateCoreRaw visible raw = .error e := by
  induction raw with
  | nil => simp at h
  | cons c cs ih =>
    cases hls : c.links with
    | none => exact ⟨"KeyError: links", by simp [validateCoreRaw, hls]⟩
    | some ls =>
      obtain ⟨d, hd, hdl⟩ := h
      rcases List.mem_cons.mp hd with rfl | hd'
      · rw [hls] at hdl; cases hdl
      · obtain ⟨e, he⟩ := ih ⟨d, hd', hdl⟩
        exact ⟨e, by simp [validateCoreRaw, hls, he]⟩

/-- A link kept under the empty visible set has no embedded page
key. -/
theorem keepLink_nil_eq_true (link : MenuLink)
    (h : keepLink [] link = true) : pyContains link.href "/page/" = false := by
  by_cases hc : pyContains link.href "/page/" = true
  · rw [keepLink, if_pos hc] at h
    simp at h
  · simpa using hc

/-- The partition loop of `get_visible_pages` is the pair of stable
filters by the (negated) hide rule. -/
theorem partitionPages_eq (pages : List (String × PageData)) :
    partitionPages pages =
      (pages.filter fun p => !should_hide_page p.1 p.2,
       pages.filter fun p => should_hide_page p.1 p.2) := by
  induction pages with
  | nil => rfl
  | cons p rest ih =>
    obtain ⟨page_id, page_data⟩ := p
    simp only [partitionPages, ih, List.filter_cons]
    by_cases h : should_hide_page page_id page_data = true
    · simp [h]
    · simp [Bool.eq_false_iff.mpr h, h]

/-- With pairwise-distinct keys (a mapping), a key determines its
record. -/
theorem nodup_keys_unique (pages : List (String × PageData))
    (hkeys : (pages.map Prod.fst).Nodup) (k : String) (d₁ d₂ : PageData)
    (h₁ : (k, d₁) ∈ pages) (h₂ : (k, d₂) ∈ pages) : d₁ = d₂ := by
  induction pages with
  | nil => simp at h₁
  | cons p rest ih =>
    simp only [List.map_cons, List.nodup_cons] at hkeys
    rcases List.mem_cons.mp h₁ with rfl | h₁'
    · rcases List.mem_cons.mp h₂ with h | h₂'
      · cases h; rfl
      · exact absurd (List.mem_map.mpr ⟨(k, d₂), h₂', rfl⟩) hkeys.1
    · rcases List.mem_cons.mp h₂ with rfl | h₂'
      · exact absurd (List.mem_map.mpr ⟨(k, d₁), h₁', rfl⟩) hkeys.1
      · exact ih hkeys.2 h₁' h₂'

/-! ## Claim theorems -/

/-- C1: for every input menu tree and every visible page set, the
reconciliation loop produces, for each surviving category, exactly the
input links that pass the keep rule, in their original relative order,
and preserves the relative order of categories: the cleaned menu is
the stable `filterMap` of the input by `keepLink` (a link whose href
contains `/page/` is kept iff the key after the last `/page/` is in
the visible set; a link without `/page/` is kept unconditionally). -/
theorem menu_reconciliation_stable_filter (visible : List String)
    (tree : List MenuCategory) :
    (validateCore visible tree).1 =
      tree.filterMap fun c =>
        let cl := c.links.filter (keepLink visible)
        if cl.isEmpty then none else some { c with links := cl } :=
  validateCore_fst_eq visible tree

/-- C2: every category in the reconciled output has a non-empty link
list, and when the filtered link list of every category is empty (in
particular for a category with zero links, or under a visible set that
rules everything out) the output contains no categories at all. -/
theorem reconciliation_no_empty_categories (visible : List String)
    (tree : List MenuCategory) :
    (∀ c ∈ (validateCore visible tree).1, c.links ≠ []) ∧
      ((∀ c ∈ tree, c.links.filter (keepLink visible) = []) →
        (validateCore visible tree).1 = []) := by
  refine ⟨fun c hc => validateCore_mem_ne_nil visible tree c hc, fun hall => ?_⟩
  rw [validateCore_fst_eq]
  rw [List.filterMap_eq_nil_iff]
  intro c hc
  simp [hall c hc]

/-- Witness for C2 at a concrete input: a tree whose single category
links only to a page outside the visible set reconciles to the empty
tree. -/
theorem reconciliation_no_empty_categories_witness :
    (validateCore []
      [⟨"6 SADS & DRO", "btn-orange",
        [⟨"Active DROs", "x/experience/e1/page/Active-DROs", "Active DROs"⟩]⟩]).1
      = [] :=
  (reconciliation_no_empty_categories []
    [⟨"6 SADS & DRO", "btn-orange",
      [⟨"Active DROs", "x/experience/e1/page/Active-DROs", "Active DROs"⟩]⟩]).2
    (by decide)

/-- C3 counterexample: the claim quantifies over every tree in which
every link with an embedded page key is visible.  A tree containing a
category with zero links satisfies that vacuously, yet reconciliation
drops the category, so the output is not equal to the input. -/
theorem reconcile_clean_tree_counterexample :
    validateCore [] [⟨"1 Situation Summary", "btn-purple", []⟩] = ([], []) ∧
      validateCore [] [⟨"1 Situation Summary", "btn-purple", []⟩] ≠
        ([⟨"1 Situation Summary", "btn-purple", []⟩], []) := by
  constructor
  · rfl
  · decide

/-- C3 amended: reconciliation is the identity, with an empty
removed-items report, on every clean tree whose categories each have
at least one link (the extra non-emptiness condition is forced by the
counterexample: a zero-link category is always dropped). -/
theorem reconcile_idempotent_on_clean (visible : List String)
    (tree : List MenuCategory)
    (hclean : ∀ c ∈ tree, ∀ l ∈ c.links,
      pyContains l.href "/page/" = true →
        visible.contains (pyLastSegment l.href "/page/") = true)
    (hne : ∀ c ∈ tree, c.links ≠ []) :
    validateCore visible tree = (tree, []) := by
  refine validateCore_clean visible tree (fun c hc l hl => ?_) hne
  rw [keepLink]
  by_cases h : pyContains l.href "/page/" = true
  · rw [if_pos h]
    exact hclean c hc l hl h
  · rw [if_neg h]

/-- Witness for the amended C3 theorem at a concrete clean tree. -/
theorem reconcile_idempotent_on_clean_witness :
    validateCore ["National", "Heat-Risk"]
      [⟨"1 Situation Summary", "btn-purple",
        [⟨"National", "x/experience/e1/page/National", "National"⟩,
         ⟨"Heat Risk", "x/experience/e1/page/Heat-Risk", "Heat Risk"⟩,
         ⟨"External", "https://www.redcross.org", "External"⟩]⟩] =
      ([⟨"1 Situation Summary", "btn-purple",
        [⟨"National", "x/experience/e1/page/National", "National"⟩,
         ⟨"Heat Risk", "x/experience/e1/page/Heat-Risk", "Heat Risk"⟩,
         ⟨"External", "https://www.redcross.org", "External"⟩]⟩], []) :=
  reconcile_idempotent_on_clean ["National", "Heat-Risk"]
    [⟨"1 Situation Summary", "btn-purple",
      [⟨"National", "x/experience/e1/page/National", "National"⟩,
       ⟨"Heat Risk", "x/experience/e1/page/Heat-Risk", "Heat Risk"⟩,
       ⟨"External", "https://www.redcross.org", "External"⟩]⟩]
    (by decide) (by decide)

/-- C4: the classifier rules are first-match-wins.  A page with
`visible = false` whose label contains "test" is hidden, and the
reason `get_hide_reason` reports for it is the rule-1 reason
(spelled "Not visible" in the code), never the rule-3 reason
(spelled "Test/development page"). -/
theorem hide_reason_precedence_not_visible (page_id : String)
    (page_data : PageData) (hvis : page_data.visible = some false)
    (htest : pyContains (pageLabel page_data) "test" = true) :
    should_hide_page page_id page_data = true ∧
      get_hide_reason page_id page_data = "Not visible" ∧
      get_hide_reason page_id page_data ≠ "Test/development page" := by
  have h1 : page_data.visible.getD true = false := by rw [hvis]; rfl
  refine ⟨?_, ?_, ?_⟩
  · simp [should_hide_page, h1]
  · simp [get_hide_reason, h1]
  · simp only [get_hide_reason, h1]
    simp

/-- Witness for C4 at a concrete page record. -/
theorem hide_reason_precedence_not_visible_witness :
    should_hide_page "page_42" ⟨some "Smoke Test", some false, none⟩ = true ∧
      get_hide_reason "page_42" ⟨some "Smoke Test", some false, none⟩ = "Not visible" ∧
      get_hide_reason "page_42" ⟨some "Smoke Test", some false, none⟩ ≠
        "Test/development page" :=
  hide_reason_precedence_not_visible "page_42" ⟨some "Smoke Test", some false, none⟩
    rfl (by decide)

/-- C5: the partition a fetched page collection (a mapping, so its
keys are pairwise distinct) undergoes in the classifier is total and
disjoint: the sizes of the visible and hidden subsets add up to the
size of the collection, and no key is in both subsets. -/
theorem page_partition_total_disjoint (pages : List (String × PageData))
    (hkeys : (pages.map Prod.fst).Nodup) :
    (partitionPages pages).1.length + (partitionPages pages).2.length =
        pages.length ∧
      ∀ k, k ∈ (partitionPages pages).1.map Prod.fst →
        k ∈ (partitionPages pages).2.map Prod.fst → False := by
  rw [partitionPages_eq]
  constructor
  · have h := List.length_eq_length_filter_add
      (l := pages) (fun p => !should_hide_page p.1 p.2)
    simpa [Bool.not_not] using h.symm
  · intro k h1 h2
    obtain ⟨⟨k1, d1⟩, hm1, hk1⟩ := List.mem_map.mp h1
    obtain ⟨⟨k2, d2⟩, hm2, hk2⟩ := List.mem_map.mp h2
    rw [List.mem_filter] at hm1 hm2
    cases hk1
    cases hk2
    have hd := nodup_keys_unique pages hkeys k1 d1 d2 hm1.1 hm2.1
    have hhide1 := hm1.2
    have hhide2 := hm2.2
    rw [hd] at hhide1
    rw [hhide2] at hhide1
    simp at hhide1

/-- Witness for C5 at a concrete two-page collection (one visible, one
hidden by the manual override). -/
theorem page_partition_total_disjoint_witness :
    (partitionPages [("page_84", ⟨some "National", none, none⟩),
        ("page_154", ⟨some "OLD", none, none⟩)]).1.length +
      (partitionPages [("page_84", ⟨some "National", none, none⟩),
        ("page_154", ⟨some "OLD", none, none⟩)]).2.length = 2 :=
  (page_partition_total_disjoint
    [("page_84", ⟨some "National", none, none⟩),
     ("page_154", ⟨some "OLD", none, none⟩)] (by decide)).1

/-- C6 counterexample: `page_77` with label "wip" is hidden (rule 4 of
`should_hide_page`), no earlier rule applies, yet `get_hide_reason` —
which has no under-construction branch at all — reports
"Unknown reason", not "under construction". -/
theorem construction_reason_counterexample :
    should_hide_page "page_77" ⟨some "wip", none, none⟩ = true ∧
      get_hide_reason "page_77" ⟨some "wip", none, none⟩ = "Unknown reason" ∧
      get_hide_reason "page_77" ⟨some "wip", none, none⟩ ≠ "under construction" := by
  refine ⟨by decide, by decide, by decide⟩

/-- C6 amended: for a page hidden by the under-construction keyword
rule and caught by no earlier rule, the reported reason is "Manual
override" when its key is in the override list and "Unknown reason"
otherwise — `get_hide_reason` implements no under-construction
branch. -/
theorem construction_pages_reason_unknown (page_id : String)
    (page_data : PageData)
    (h1 : page_data.visible.getD true = true)
    (h2 : page_data.showInNav.getD true = true)
    (h3 : ∀ kw ∈ test_keywords, pyContains (pageLabel page_data) kw = false)
    (h4 : construction_keywords.any
      (fun kw => pyContains (pageLabel page_data) kw) = true) :
    should_hide_page page_id page_data = true ∧
      get_hide_reason page_id page_data =
        (if (["page_154", "page_181", "page_129", "page_130"] :
            List String).contains page_id
          then "Manual override" else "Unknown reason") := by
  have hany : test_keywords.any
      (fun kw => pyContains (pageLabel page_data) kw) = false := by
    rw [List.any_eq_false]
    intro kw hkw
    simp [h3 kw hkw]
  have hany3 : (["test", "beta", "old"] : List String).any
      (fun kw => pyContains (pageLabel page_data) kw) = false := by
    rw [List.any_eq_false]
    intro kw hkw
    have hmem : kw ∈ test_keywords := by
      fin_cases hkw <;> decide
    simp [h3 kw hmem]
  constructor
  · simp [should_hide_page, h1, h2, hany, h4]
  · simp [get_hide_reason, h1, h2, hany3]

/-- Witness for the amended C6 theorem at a concrete page record. -/
theorem construction_pages_reason_unknown_witness :
    should_hide_page "page_77" ⟨some "coming soon", none, none⟩ = true ∧
      get_hide_reason "page_77" ⟨some "coming soon", none, none⟩ =
        (if (["page_154", "page_181", "page_129", "page_130"] :
            List String).contains "page_77"
          then "Manual override" else "Unknown reason") :=
  construction_pages_reason_unknown "page_77" ⟨some "coming soon", none, none⟩
    (by decide) (by decide) (by decide) (by decide)

/-- C7 counterexample: on a tree whose category lacks a `links`
sequence, the inner loop does raise a `KeyError`, but
`validate_menu_visibility` catches every exception and returns the
original tree — no `InvalidTreeError` (or any error) reaches the
caller, contradicting "raises ... exactly when the input tree is
malformed". -/
theorem malformed_tree_no_error_counterexample :
    validateCoreRaw [] [⟨"4 Logistics", "btn-green", none⟩] =
        Except.error "KeyError: links" ∧
      validate_menu_visibility (some "exp1") (.withPages [])
        [⟨"4 Logistics", "btn-green", none⟩] =
        [⟨"4 Logistics", "btn-green", none⟩] :=
  ⟨rfl, rfl⟩

/-- C7 amended: reconciliation never raises.  On a malformed input
(a category lacking a `links` sequence) the internal lookup error is
swallowed by the blanket exception handler and the input tree is
returned unchanged, whatever the fetch outcome; the function also
performs fetch I/O on every validated run, so it is not I/O-free. -/
theorem malformed_tree_returns_input (experience_id : String)
    (fetched : FetchResult) (menu_data : List RawCategory)
    (hmal : ∃ c ∈ menu_data, c.links = none) :
    validate_menu_visibility (some experience_id) fetched menu_data =
      menu_data := by
  cases fetched with
  | failure => rfl
  | noPages =>
    obtain ⟨e, he⟩ := validateCoreRaw_missing [] menu_data hmal
    simp [validate_menu_visibility, get_visible_pages, he]
  | withPages ps =>
    obtain ⟨e, he⟩ := validateCoreRaw_missing
      ((partitionPages ps).1.map Prod.fst) menu_data hmal
    simp [validate_menu_visibility, get_visible_pages, he]

/-- Witness for the amended C7 theorem at a concrete malformed tree. -/
theorem malformed_tree_returns_input_witness :
    validate_menu_visibility (some "exp1") .noPages
      [⟨"2 Weather", "btn-blue", none⟩] = [⟨"2 Weather", "btn-blue", none⟩] :=
  malformed_tree_returns_input "exp1" .noPages
    [⟨"2 Weather", "btn-blue", none⟩] (by decide)

/-- C8 counterexample: a rejected client-credential exchange returns a
JSON body with no `access_token`; `get_arcgis_token` then returns the
non-token value `None` successfully — it raises no `AuthError` (no
such error exists in the code). -/
theorem token_rejection_counterexample :
    get_arcgis_token (.response [("error", "invalid_client")]) =
      Except.ok none := rfl

/-- C8 amended: whenever the token-exchange response omits an access
token (in particular whenever the exchange is rejected),
`get_arcgis_token` returns `None` — the absent access_token member —
rather than failing; only a transport-level exception propagates. -/
theorem token_response_omitted_no_error (fields : List (String × String))
    (homit : jsonGet fields "access_token" = none) :
    get_arcgis_token (.response fields) = Except.ok none := by
  simp [get_arcgis_token, homit]

/-- Witness for the amended C8 theorem at a concrete rejection body. -/
theorem token_response_omitted_no_error_witness :
    get_arcgis_token
      (.response [("error", "invalid_client"), ("message", "rejected")]) =
      Except.ok none :=
  token_response_omitted_no_error
    [("error", "invalid_client"), ("message", "rejected")] rfl

/-- C9 counterexample: a run where VCS publishing fails (push
rejected) but HTTP publishing succeeds returns the same bare `false`
as a run where both targets fail — the caller cannot distinguish
"exactly one failed" from "both failed" from the returned value, which
is a single boolean. -/
theorem full_deployment_boolean_counterexample :
    deploy_to_github ⟨"M menu.json", true, true, false⟩ = false ∧
      full_deployment true true ⟨"M menu.json", true, true, false⟩ true = false ∧
      full_deployment true true ⟨"M menu.json", false, false, false⟩ false = false ∧
      full_deployment true true ⟨"M menu.json", true, true, false⟩ true =
        full_deployment true true ⟨"M menu.json", false, false, false⟩ false := by
  decide

/-- C9 amended: `full_deployment` returns a single boolean — `true`
iff validation passed and both publish targets succeeded — without
raising; the per-target breakdown is only printed, never returned.  In
particular a VCS failure with an HTTP success yields the plain value
`false`. -/
theorem full_deployment_single_boolean (backup_ok validate_ok : Bool)
    (git : GitEnv) (pythonanywhere_ok : Bool) :
    full_deployment backup_ok validate_ok git pythonanywhere_ok =
      (validate_ok && (deploy_to_github git && pythonanywhere_ok)) := by
  by_cases h : deploy_to_github git = true <;>
    cases validate_ok <;> cases pythonanywhere_ok <;>
      simp [full_deployment, h]

/-- C10 counterexample: when page-collection retrieval fails (the
request raises), `validate_menu_visibility` returns the original tree
unchanged — the link with an embedded page key is NOT pruned,
contradicting "classification degrades to an empty visible set". -/
theorem fetch_failure_no_prune_counterexample :
    pyContains "x/experience/e1/page/DAT" "/page/" = true ∧
      validate_menu_visibility (some "exp1") .failure
        [⟨"7 Financial Asst DAT", "btn-red",
          some [⟨"DAT", "x/experience/e1/page/DAT", "DAT"⟩]⟩] =
        [⟨"7 Financial Asst DAT", "btn-red",
          some [⟨"DAT", "x/experience/e1/page/DAT", "DAT"⟩]⟩] :=
  ⟨by decide, rfl⟩

/-- C10 amended: a failed retrieval is caught and validation is
skipped entirely — the original tree is returned unchanged; only a
response that merely lacks the page collection is treated as zero
pages, in which case every link with an embedded page key is pruned
from the (well-formed) output. -/
theorem fetch_failure_skips_validation (experience_id : String)
    (menu_data : List RawCategory) :
    validate_menu_visibility (some experience_id) .failure menu_data =
        menu_data ∧
      ((∀ c ∈ menu_data, c.links ≠ none) →
        ∀ c ∈ validate_menu_visibility (some experience_id) .noPages menu_data,
          ∀ ls, c.links = some ls →
            ∀ l ∈ ls, pyContains l.href "/page/" = false) := by
  constructor
  · rfl
  · intro hall c hc ls hls l hl
    obtain ⟨tree, rfl⟩ := allSome_eq_map_toRaw menu_data hall
    have hraw := validateCoreRaw_toRaw ([] : List String) tree
    have hval : validate_menu_visibility (some experience_id) .noPages
        (tree.map MenuCategory.toRaw) =
        ((validateCore ([] : List String) tree).1).map MenuCategory.toRaw := by
      simp [validate_menu_visibility, get_visible_pages, hraw]
    rw [hval] at hc
    obtain ⟨c', hc', rfl⟩ := List.mem_map.mp hc
    rw [validateCore_fst_eq] at hc'
    obtain ⟨a, _, ha⟩ := List.mem_filterMap.mp hc'
    by_cases he : (a.links.filter (keepLink [])).isEmpty = true
    · rw [if_pos he] at ha
      cases ha
    · rw [if_neg he] at ha
      obtain rfl := Option.some.inj ha
      simp only [MenuCategory.toRaw] at hls
      obtain rfl := Option.some.inj hls
      exact keepLink_nil_eq_true l (List.mem_filter.mp hl).2

/-- Witness for the amended C10 theorem: on a zero-pages response, the
surviving link of the concrete tree has no embedded page key. -/
theorem fetch_failure_skips_validation_witness :
    pyContains "https://www.redcross.org" "/page/" = false :=
  (fetch_failure_skips_validation "exp1"
    [⟨"Links", "btn-blue",
      some [⟨"Ext", "https://www.redcross.org", "Ext"⟩,
            ⟨"DAT", "x/experience/e1/page/DAT", "DAT"⟩]⟩]).2
    (by decide)
    ⟨"Links", "btn-blue", some [⟨"Ext", "https://www.redcross.org", "Ext"⟩]⟩
    (by decide)
    [⟨"Ext", "https://www.redcross.org", "Ext"⟩] rfl
    ⟨"Ext", "https://www.redcross.org", "Ext"⟩ (by decide)

end NatOpsSummary
